import Mathlib

/-
Verification of the MiniSigGen waveform synthesis engine.

The repository contains two variants of the engine:
  * `src/unnamed/part_000` (the WaveGen translation unit): globals `phase`,
    `phaseStep`, `ampScale`, `wf`, functions `build_luts_once`, `on_timer`,
    `configure_dac_wave`, `configure_square`, `wavegen_apply`, `wavegen_init`.
    Embedded below in namespace `SigGen`.
  * `src/code/main_v1.ino`: globals `mode`, `frequencyHz`, `amplitude`,
    `phaseIdx`, functions `buildLUTs`, `applyAmplitude`, `calcTimerPeriodUs`,
    `applyMode`, `waveTimerCb`, `startTimerWave` etc.
    Embedded below in namespace `MainV1`.

Modelling conventions:
  * C `float` arithmetic is modelled exactly over ℚ (and over ℝ where `sinf`
    appears); clamping, scaling by powers of two, and the small integer values
    involved make the rational model the intended ideal semantics.
  * Integer casts that truncate a nonnegative float are modelled as `Int.floor`
    followed by `Int.toNat`; `lroundf` (round half away from zero, applied to
    nonnegative arguments only) is modelled as Mathlib's `round` (= ⌊x + 1/2⌋).
  * The `uint16_t` phase accumulator is modelled as ℕ: the C expression
    `(phase + phaseStep) & (LUT_N - 1)` masks to the low 8 bits, so the
    intermediate `% 2^16` wrap is value-irrelevant (256 divides 2^16).
  * Hardware side effects (DAC enable, timer start/stop, LEDC attach/setup,
    pin writes) are recorded as fields of an explicit state record; a DAC
    sample write performed by a tick handler is returned as an `Option ℕ`.
-/

namespace SigGen

/-- Model of `enum class Waveform` from the WaveGen interface (`WaveGen.h` /
`part_000`). -/
inductive Waveform where
  | Sine
  | Tri
  | Saw
  | Square
deriving DecidableEq, Repr

/-- Modelled from the spec: the `Settings` struct is declared in `Types.h`,
which is not among the sources.  Its fields are reconstructed from the spec's
`EngineSettings`/`DerivedActuals` (waveform, target frequency, amplitude in
[0,255], actual frequency) and from every use in `part_000`
(`g.wave`, `g.targetHz`, `g.amp`, `g.actualHz`). -/
structure Settings where
  wave : Waveform
  targetHz : ℚ
  amp : ℕ
  actualHz : ℚ
deriving DecidableEq, Repr

/-- Model of `LUT_N = 256` (`part_000` line 10). -/
def LUT_N : ℕ := 256

/-- Model of `PWM_MAX_HZ = 10000000` (`part_000` line 26). -/
def PWM_MAX_HZ : ℚ := 10000000

/-- Model of `DAC_MAX_HZ = 20000.0f` (`part_000` line 27). -/
def DAC_MAX_HZ : ℚ := 20000

/-- Sine LUT entry (`build_luts_once`, line 52):
`lut_sin[i] = (uint8_t)(127.5f + 127.5f * sinf(2πi/LUT_N) + 0.5f)`.
`sinf` is modelled as `Real.sin`; the `uint8_t` cast truncates the
nonnegative float, i.e. takes the floor. -/
noncomputable def lut_sin (i : Fin 256) : ℕ :=
  (⌊(127.5 : ℝ) + 127.5 * Real.sin (2 * Real.pi * (((i : ℕ) : ℝ) / 256)) + 0.5⌋).toNat

/-- Triangle LUT entry (`build_luts_once`, line 53):
`lut_tri[i] = (i < 128) ? i*2 : (255-i)*2`. -/
def lut_tri (i : Fin 256) : ℕ :=
  if (i : ℕ) < 128 then (i : ℕ) * 2 else (255 - (i : ℕ)) * 2

/-- Sawtooth LUT entry (`build_luts_once`, line 54): `lut_saw[i] = (uint8_t)i`. -/
def lut_saw (i : Fin 256) : ℕ := (i : ℕ)

/-- Model of `lut_get_sample` (`part_000` lines 29-36). -/
noncomputable def lut_get_sample (w : Waveform) (idx : Fin 256) : ℕ :=
  match w with
  | Waveform.Sine => lut_sin idx
  | Waveform.Tri => lut_tri idx
  | Waveform.Saw => lut_saw idx
  | Waveform.Square => 0

/-- The mutable globals of `part_000` (lines 8-21) together with the hardware
state the translation unit drives: DAC output enable, the esp_timer, and the
LEDC PWM channel. -/
structure WGState where
  g : Settings
  phase : ℕ
  phaseStep : ℕ
  ampScale : ℕ
  wf : Waveform
  periodUs : ℕ
  timerRunning : Bool
  dacEnabled : Bool
  pwmAttached : Bool
  pwmFreq : ℕ
  pwmDuty : ℕ

/-- Model of `dac_timer_start` (lines 58-72): recreates and starts the periodic timer. -/
def dac_timer_start (perUs : ℕ) (s : WGState) : WGState :=
  { s with periodUs := perUs, timerRunning := true }

/-- Model of `dac_timer_stop` (lines 74-80). -/
def dac_timer_stop (s : WGState) : WGState :=
  { s with timerRunning := false }

/-- The inline amplitude scaling of `on_timer` (line 43):
`(uint16_t(raw) * ampScale) >> 8`. -/
def scale_sample (raw amp : ℕ) : ℕ :=
  (raw * amp) >>> 8

/-- Model of `on_timer` (lines 38-47): the sample-clock tick handler.  Returns the new
state and the sample written to the DAC (`none` when nothing is written). -/
noncomputable def on_timer (s : WGState) : WGState × Option ℕ :=
  if s.wf = Waveform.Square then (s, none)
  else
    let raw := lut_get_sample s.wf ⟨s.phase &&& 255, Nat.lt_succ_of_le Nat.and_le_right⟩
    let out := scale_sample raw s.ampScale
    ({ s with phase := (s.phase + s.phaseStep) &&& 255 }, some out)

/-- Model of `configure_dac_wave` (lines 82-105).  Clamps the target, fixes the 50 µs
sample period, quantizes the phase step, writes it, enables the DAC, restarts
the timer, and returns the actual output frequency. -/
def configure_dac_wave (targetHz : ℚ) (s : WGState) : WGState × ℚ :=
  let t1 : ℚ := if targetHz < 1 then 1 else targetHz
  let t2 : ℚ := if t1 > DAC_MAX_HZ then DAC_MAX_HZ else t1
  let per : ℕ := 50
  let fs : ℚ := 1000000 / ((per : ℚ))
  let idealStep : ℚ := (t2 * 256) / fs
  let st0 : ℕ := (⌊idealStep + 0.5⌋).toNat
  let st1 : ℕ := if st0 < 1 then 1 else st0
  let st2 : ℕ := if st1 > 64 then 64 else st1
  let actual : ℚ := fs * ((st2 : ℚ) / 256)
  let s1 := { s with periodUs := per, phaseStep := st2, dacEnabled := true }
  (dac_timer_start per s1, actual)

/-- Model of `configure_square` (lines 107-119): clamps the target to the PWM range,
stops the sample timer, disables the DAC, and (re)attaches the LEDC channel at
the clamped frequency with 50% duty.  The `(uint32_t)targetHz` cast truncates
the (≥ 1) float. -/
def configure_square (targetHz : ℚ) (s : WGState) : WGState :=
  let t1 : ℚ := if targetHz < 1 then 1 else targetHz
  let t2 : ℚ := if t1 > PWM_MAX_HZ then PWM_MAX_HZ else t1
  let s1 := dac_timer_stop s
  let s2 := { s1 with dacEnabled := false }
  let s3 := { s2 with pwmAttached := false }
  let s4 := { s3 with pwmFreq := (⌊t2⌋).toNat }
  let s5 := { s4 with pwmAttached := true }
  { s5 with pwmDuty := 128 }

/-- Model of `wavegen_apply` (lines 128-142). -/
def wavegen_apply (s : Settings) (st : WGState) : WGState :=
  let amp1 : ℕ := if s.amp > 255 then 255 else s.amp
  let g1 : Settings := { s with amp := amp1 }
  let st1 := { st with g := g1, ampScale := amp1, wf := g1.wave }
  if g1.wave = Waveform.Square then
    let st2 := configure_square g1.targetHz st1
    { st2 with g := { st2.g with actualHz := st2.g.targetHz } }
  else
    let p := configure_dac_wave g1.targetHz st1
    { p.1 with g := { p.1.g with actualHz := p.2 } }

/-- The startup values of the `part_000` globals (lines 8-21: `phase = 0`,
`phaseStep = 1`, `ampScale = 255`, `wf = Sine`, `periodUs = 50`, no timer) and
of the hardware (nothing enabled or attached).  `g0` is the default-constructed
`Settings` global (its defaults live in the missing `Types.h`). -/
def startupState (g0 : Settings) : WGState :=
  { g := g0, phase := 0, phaseStep := 1, ampScale := 255, wf := Waveform.Sine,
    periodUs := 50, timerRunning := false, dacEnabled := false,
    pwmAttached := false, pwmFreq := 0, pwmDuty := 0 }

/-- Model of `wavegen_init` (lines 121-126): builds the LUTs (top-level defs here),
enables the DAC, and applies the default settings `g0`. -/
def wavegen_init (g0 : Settings) : WGState :=
  wavegen_apply g0 { startupState g0 with dacEnabled := true }

/-- Model of `wavegen_get` (line 144). -/
def wavegen_get (st : WGState) : Settings := st.g

/-- The states reachable through the engine interface: startup followed by any
interleaving of control-context `wavegen_apply` calls and sample-clock ticks
(`on_timer`).  Ticks are allowed in every state, a superset of the real
schedules (the timer may be stopped), which only strengthens invariants proved
over `Reachable`. -/
inductive Reachable : WGState → Prop where
  | init (g0 : Settings) : Reachable (wavegen_init g0)
  | apply (s : Settings) {st : WGState} : Reachable st → Reachable (wavegen_apply s st)
  | tick {st : WGState} : Reachable st → Reachable (on_timer st).1

end SigGen

namespace MainV1

/-- Model of `enum WaveMode` (`main_v1.ino` line 42). -/
inductive WaveMode where
  | MODE_SINE
  | MODE_TRI
  | MODE_SAW
  | MODE_SQUARE
deriving DecidableEq, Repr

/-- Model of `LEDC_DUTY_50 = (1 << 10) / 2` (`main_v1.ino` line 13). -/
def LEDC_DUTY_50 : ℕ := 512

/-- Model of `FREQ_MIN` (`main_v1.ino` line 29). -/
def FREQ_MIN : ℚ := 1

/-- Model of `FREQ_MAX` (`main_v1.ino` line 30). -/
def FREQ_MAX : ℚ := 5000

/-- Sine LUT of `buildLUTs` (`main_v1.ino` lines 86-91):
`lutSine[i] = lroundf((sinf(2πi/256) * 0.5 + 0.5) * 255)`; the argument is
nonnegative, so `lroundf` coincides with `round`. -/
noncomputable def lutSine (i : Fin 256) : ℕ :=
  (round ((Real.sin (2 * Real.pi * ((i : ℕ) : ℝ) / 256) * 0.5 + 0.5) * 255)).toNat

/-- Triangle LUT of `buildLUTs` (lines 94-98):
`p = i/255; tri = p < 0.5 ? 2p : 2(1-p); lutTri[i] = lroundf(tri * 255)`. -/
def lutTri (i : Fin 256) : ℕ :=
  let p : ℚ := ((i : ℕ) : ℚ) / 255
  let tri : ℚ := if p < 1/2 then 2 * p else 2 * (1 - p)
  (round (tri * 255)).toNat

/-- Sawtooth LUT of `buildLUTs` (lines 101-103): `(i * 255) / 255` in integer
arithmetic. -/
def lutSaw (i : Fin 256) : ℕ := ((i : ℕ) * 255) / 255

/-- Model of `clampi` (`main_v1.ino` lines 67-71). -/
def clampi (x lo hi : ℤ) : ℤ :=
  if x < lo then lo else if x > hi then hi else x

/-- Model of `clampf` (`main_v1.ino` lines 61-65). -/
def clampf (x lo hi : ℚ) : ℚ :=
  if x < lo then lo else if x > hi then hi else x

/-- Model of `applyAmplitude` (lines 108-114).  `amplitude` is the global `int`;
C `/` on `int` truncates toward zero, i.e. `Int.tdiv`. -/
def applyAmplitude (amplitude : ℤ) (base : ℕ) : ℕ :=
  let centered : ℤ := (base : ℤ) - 128
  let scaled : ℤ := Int.tdiv (centered * amplitude) 255
  let out : ℤ := 128 + scaled
  (clampi out 0 255).toNat

/-- The mutable globals of `main_v1.ino` (lines 42-57) plus the hardware state
they drive: `waveTimer` existence/activity, DAC enable, the LEDC channel and
the square pin level. -/
structure State where
  mode : WaveMode
  frequencyHz : ℚ
  amplitude : ℤ
  phaseIdx : ℕ
  timerPeriodUs : ℕ
  timerActive : Bool
  hasTimer : Bool
  dacEnabled : Bool
  ledcAttached : Bool
  ledcFreq : ℕ
  ledcDuty : ℕ
  squarePinLow : Bool

/-- Model of `calcTimerPeriodUs` (lines 117-125). -/
def calcTimerPeriodUs (fHz : ℚ) : ℕ :=
  let sr0 : ℚ := fHz * 256
  let sr : ℚ := if sr0 < 1 then 1 else sr0
  let p0 : ℚ := 1000000 / sr
  let p1 : ℚ := if p0 < 20 then 20 else p0
  let p2 : ℚ := if p1 > 50000 then 50000 else p1
  (round p2).toNat

/-- Model of `stopTimerWave` (lines 129-134). -/
def stopTimerWave (s : State) : State :=
  if s.hasTimer ∧ s.timerActive then { s with timerActive := false } else s

/-- Model of `startTimerWave` (lines 136-141): no-op when the timer was never created,
otherwise resets `phaseIdx` to 0 and starts the periodic timer. -/
def startTimerWave (s : State) : State :=
  if s.hasTimer then { s with phaseIdx := 0, timerActive := true } else s

/-- Model of `setSquareWave` (lines 143-148): `ledcSetup(ch, lroundf(fHz), 10)`, attach,
50% duty. -/
def setSquareWave (fHz : ℚ) (s : State) : State :=
  { s with ledcFreq := (round fHz).toNat, ledcAttached := true,
           ledcDuty := LEDC_DUTY_50 }

/-- Model of `stopSquareWave` (lines 150-154): detach the LEDC channel and drive the
square pin low. -/
def stopSquareWave (s : State) : State :=
  { s with ledcAttached := false, squarePinLow := true }

/-- Model of `applyMode` (lines 156-172): stop everything, then configure exactly the
path the current mode needs. -/
def applyMode (s : State) : State :=
  let s1 := stopTimerWave s
  let s2 := stopSquareWave s1
  let s3 := { s2 with dacEnabled := false }
  if s3.mode = WaveMode.MODE_SQUARE then
    setSquareWave s3.frequencyHz s3
  else
    let s4 := { s3 with dacEnabled := true }
    let s5 := { s4 with timerPeriodUs := calcTimerPeriodUs s4.frequencyHz }
    startTimerWave s5

/-- Model of `waveTimerCb` (lines 176-191): the tick handler.  Returns the new state and
the sample written to the DAC (it always writes one). -/
noncomputable def waveTimerCb (s : State) : State × Option ℕ :=
  let base : ℕ :=
    match s.mode with
    | WaveMode.MODE_SINE => lutSine ⟨s.phaseIdx &&& 255, Nat.lt_succ_of_le Nat.and_le_right⟩
    | WaveMode.MODE_TRI => lutTri ⟨s.phaseIdx &&& 255, Nat.lt_succ_of_le Nat.and_le_right⟩
    | WaveMode.MODE_SAW => lutSaw ⟨s.phaseIdx &&& 255, Nat.lt_succ_of_le Nat.and_le_right⟩
    | WaveMode.MODE_SQUARE => 128
  let out := applyAmplitude s.amplitude base
  ({ s with phaseIdx := (s.phaseIdx + 1) &&& 255 }, some out)

end MainV1

namespace SigGen

/-- The analog-path Frequency Mapper as the spec words it: clamp `targetHz` to
`[1, F_DAC_MAX]`, take `fs = 1e6/50`, form the ideal step `targetHz·N/fs`,
round to the nearest integer (the code fixes round-half-up, which is Mathlib's
`round`), clamp to `[1, STEP_MAX = 64]`, and report `actualHz = fs·step/N`. -/
def mapFrequency_spec (targetHz : ℚ) : ℕ × ℚ :=
  let clamped : ℚ := max 1 (min DAC_MAX_HZ targetHz)
  let fs : ℚ := 1000000 / 50
  let ideal : ℚ := clamped * 256 / fs
  let stp : ℤ := max 1 (min 64 (round ideal))
  (stp.toNat, fs * (stp : ℚ) / 256)

/-- The sine-table law as the spec words it:
`round(127.5 + 127.5·sin(2π·i/N))` clamped to `[0,255]`. -/
noncomputable def sineSpec (i : Fin 256) : ℤ :=
  max 0 (min 255 (round ((127.5 : ℝ) + 127.5 * Real.sin (2 * Real.pi * (((i : ℕ) : ℝ) / 256)))))

end SigGen

/-- A concrete non-square settings value used by witnesses. -/
def sDemo : SigGen.Settings := ⟨SigGen.Waveform.Sine, 500, 160, 0⟩

/-- A concrete square-wave settings value used by witnesses. -/
def sSquareDemo : SigGen.Settings := ⟨SigGen.Waveform.Square, 1000, 128, 0⟩

/-- A square-wave request far above `PWM_MAX_HZ`. -/
def sBigSquare : SigGen.Settings := ⟨SigGen.Waveform.Square, 20000000, 128, 0⟩

/-- A concrete `part_000` state in square mode. -/
def wgSq : SigGen.WGState :=
  { SigGen.startupState sDemo with wf := SigGen.Waveform.Square }

/-- A concrete `main_v1` state in square mode with the timer created. -/
def mSq : MainV1.State :=
  { mode := MainV1.WaveMode.MODE_SQUARE, frequencyHz := 500, amplitude := 160,
    phaseIdx := 0, timerPeriodUs := 20, timerActive := false, hasTimer := true,
    dacEnabled := false, ledcAttached := true, ledcFreq := 500, ledcDuty := 512,
    squarePinLow := false }

/-- A concrete `main_v1` state in sine mode with the timer created. -/
def mSine : MainV1.State := { mSq with mode := MainV1.WaveMode.MODE_SINE }

open SigGen MainV1

theorem SigGen.scale_sample_eq_div (raw amp : ℕ) :
    scale_sample raw amp = raw * amp / 256 := by
  simp [scale_sample, Nat.shiftRight_eq_div_pow]

theorem SigGen.land_255_eq_mod (x : ℕ) : x &&& 255 = x % 256 := by
  have h := Nat.and_pow_two_sub_one_eq_mod x 8
  norm_num at h
  omega

/-- C5: for every `amplitudeScale ∈ [0,255]` and `rawSample ∈ [0,255]`, the
per-tick scaled output `(rawSample · amplitudeScale) >> 8` of `on_timer` lies
in `[0,255]`; with scale 0 the output is 0; with scale 255 the output is within
one code of the raw sample. -/
theorem C5_amplitude_scaling (raw amp : ℕ) (hr : raw ≤ 255) (ha : amp ≤ 255) :
    scale_sample raw amp ≤ 255 ∧
    (amp = 0 → scale_sample raw amp = 0) ∧
    (amp = 255 → scale_sample raw amp ≤ raw ∧ raw ≤ scale_sample raw amp + 1) := by
  have hmul : raw * amp ≤ 255 * 255 := Nat.mul_le_mul hr ha
  refine ⟨?_, ?_, ?_⟩
  · rw [scale_sample_eq_div]; omega
  · rintro rfl; simp [scale_sample]
  · rintro rfl; rw [scale_sample_eq_div]; omega

theorem C5_witness :
    (200 : ℕ) ≤ 255 ∧ (100 : ℕ) ≤ 255 ∧
    (scale_sample 200 100 ≤ 255 ∧
     ((100 : ℕ) = 0 → scale_sample 200 100 = 0) ∧
     ((100 : ℕ) = 255 → scale_sample 200 100 ≤ 200 ∧ 200 ≤ scale_sample 200 100 + 1)) :=
  ⟨by decide, by decide, C5_amplitude_scaling 200 100 (by decide) (by decide)⟩

/-- C10: at full amplitude the scaling `(raw · 255) >> 8` yields exactly
`raw − 1` for `raw ∈ [1,255]` and 0 for `raw = 0`; it is strictly below the
raw sample for nonzero samples and never reaches 255. -/
theorem C10_full_scale (raw : ℕ) (hr : raw ≤ 255) :
    (1 ≤ raw → scale_sample raw 255 = raw - 1) ∧
    (raw = 0 → scale_sample raw 255 = 0) ∧
    (1 ≤ raw → scale_sample raw 255 < raw) ∧
    scale_sample raw 255 ≤ 254 := by
  simp only [scale_sample_eq_div]
  omega

theorem C10_witness : (77 : ℕ) ≤ 255 ∧ scale_sample 77 255 = 77 - 1 :=
  ⟨by decide, (C10_full_scale 77 (by decide)).1 (by decide)⟩

theorem SigGen.wavegen_apply_phase (s : Settings) (st : WGState) :
    (wavegen_apply s st).phase = st.phase := by
  obtain ⟨w, t, a, hz⟩ := s
  cases w <;> unfold wavegen_apply <;> split <;> rfl

/-- C6: the phase accumulator starts at 0, every tick advance computes
`(phase + phaseStep) mod 256` (via the `& 255` mask), and every state reachable
through the engine interface keeps it in `[0, 256)`. -/
theorem C6_phase_invariant :
    (∀ g0 : Settings, (startupState g0).phase = 0) ∧
    (∀ st : WGState, st.wf ≠ Waveform.Square →
      ((on_timer st).1).phase = (st.phase + st.phaseStep) % 256) ∧
    (∀ st : WGState, Reachable st → st.phase < 256) := by
  refine ⟨fun g0 => rfl, ?_, ?_⟩
  · intro st h
    simp [on_timer, h, land_255_eq_mod]
  · intro st hst
    induction hst with
    | init g0 =>
        simp [wavegen_init, wavegen_apply_phase, startupState]
    | apply s h ih =>
        rw [wavegen_apply_phase]; exact ih
    | tick h ih =>
        unfold on_timer
        split
        · exact ih
        · simpa using Nat.lt_succ_of_le Nat.and_le_right

theorem C6_witness :
    (startupState sDemo).phase = 0 ∧
    (SigGen.startupState sDemo).wf ≠ Waveform.Square ∧
    ((on_timer (SigGen.startupState sDemo)).1).phase =
      ((SigGen.startupState sDemo).phase + (SigGen.startupState sDemo).phaseStep) % 256 ∧
    (wavegen_init sDemo).phase < 256 :=
  ⟨C6_phase_invariant.1 sDemo, by decide,
   C6_phase_invariant.2.1 (SigGen.startupState sDemo) (by decide),
   C6_phase_invariant.2.2 _ (Reachable.init sDemo)⟩

theorem MainV1.stopTimerWave_fields (s : State) :
    (stopTimerWave s).mode = s.mode ∧ (stopTimerWave s).frequencyHz = s.frequencyHz ∧
    (stopTimerWave s).phaseIdx = s.phaseIdx ∧ (stopTimerWave s).hasTimer = s.hasTimer ∧
    (stopTimerWave s).amplitude = s.amplitude := by
  unfold stopTimerWave
  split <;> exact ⟨rfl, rfl, rfl, rfl, rfl⟩

theorem MainV1.applyMode_square (s : State) (h : s.mode = WaveMode.MODE_SQUARE) :
    (applyMode s).dacEnabled = false ∧ (applyMode s).ledcAttached = true ∧
    (applyMode s).phaseIdx = s.phaseIdx ∧
    (applyMode s).ledcFreq = (round s.frequencyHz).toNat ∧
    (applyMode s).ledcDuty = LEDC_DUTY_50 := by
  obtain ⟨h1, h2, h3, h4, h5⟩ := stopTimerWave_fields s
  unfold applyMode setSquareWave
  dsimp only [stopSquareWave]
  rw [h1, if_pos h]
  exact ⟨rfl, rfl, by dsimp only; rw [h3], by dsimp only; rw [h2], rfl⟩

theorem MainV1.applyMode_analog (s : State) (h : s.mode ≠ WaveMode.MODE_SQUARE) :
    (applyMode s).dacEnabled = true ∧ (applyMode s).ledcAttached = false ∧
    ((applyMode s).phaseIdx = if s.hasTimer then 0 else s.phaseIdx) := by
  obtain ⟨h1, h2, h3, h4, h5⟩ := stopTimerWave_fields s
  unfold applyMode startTimerWave
  dsimp only [stopSquareWave]
  rw [h1, if_neg h]
  rw [h4]
  split
  · exact ⟨rfl, rfl, rfl⟩
  · exact ⟨rfl, rfl, by dsimp only; rw [h3]⟩

/-- C1 counterexample: in the `part_000` variant, `wavegen_apply` does not
reset the phase accumulator — applied to a state with `phase = 7` it leaves
`phase = 7 ≠ 0`. -/
theorem C1_counterexample :
    (wavegen_apply sDemo { SigGen.startupState sDemo with phase := 7 }).phase = 7 ∧
    (7 : ℕ) ≠ 0 :=
  ⟨rfl, by decide⟩

/-- C1 (amended): only `main_v1`'s `applyMode` resets the phase accumulator,
and only when the selected waveform is non-square and the wave timer exists
(`startTimerWave`); `applyMode` in square mode leaves `phaseIdx` unchanged, and
`wavegen_apply` in the `part_000` variant never touches `phase` at all. -/
theorem C1_amended_reset (m : MainV1.State) (hmt : m.hasTimer = true)
    (hmm : m.mode ≠ WaveMode.MODE_SQUARE)
    (m2 : MainV1.State) (hm2 : m2.mode = WaveMode.MODE_SQUARE)
    (s : Settings) (st : WGState) :
    (applyMode m).phaseIdx = 0 ∧
    (applyMode m2).phaseIdx = m2.phaseIdx ∧
    (wavegen_apply s st).phase = st.phase := by
  refine ⟨?_, (applyMode_square m2 hm2).2.2.1, wavegen_apply_phase s st⟩
  rw [(applyMode_analog m hmm).2.2, if_pos hmt]

theorem C1_witness :
    mSine.hasTimer = true ∧ mSine.mode ≠ WaveMode.MODE_SQUARE ∧
    mSq.mode = WaveMode.MODE_SQUARE ∧
    ((applyMode mSine).phaseIdx = 0 ∧
     (applyMode mSq).phaseIdx = mSq.phaseIdx ∧
     (wavegen_apply sDemo (SigGen.startupState sDemo)).phase =
       (SigGen.startupState sDemo).phase) :=
  ⟨rfl, by decide, rfl,
   C1_amended_reset mSine rfl (by decide) mSq rfl sDemo (SigGen.startupState sDemo)⟩

theorem SigGen.wavegen_apply_square_hw (s : Settings) (st : WGState)
    (h : s.wave = Waveform.Square) :
    (wavegen_apply s st).pwmAttached = true ∧
    (wavegen_apply s st).dacEnabled = false ∧
    (wavegen_apply s st).timerRunning = false := by
  obtain ⟨w, t, a, hz⟩ := s
  cases h
  unfold wavegen_apply configure_square dac_timer_stop
  split <;> exact ⟨rfl, rfl, rfl⟩

theorem SigGen.wavegen_apply_analog_hw (s : Settings) (st : WGState)
    (h : s.wave ≠ Waveform.Square) :
    (wavegen_apply s st).dacEnabled = true ∧
    (wavegen_apply s st).pwmAttached = st.pwmAttached ∧
    (wavegen_apply s st).timerRunning = true := by
  obtain ⟨w, t, a, hz⟩ := s
  cases w <;> simp only [ne_eq] at h <;> try exact absurd trivial h
  all_goals
    unfold wavegen_apply configure_dac_wave dac_timer_start
  all_goals
    split <;> exact ⟨rfl, rfl, rfl⟩

/-- C2 counterexample: in the `part_000` variant, switching to Square and then
back to Sine leaves BOTH output paths enabled — `configure_dac_wave` enables
the DAC without ever detaching the PWM channel. -/
theorem C2_counterexample :
    (wavegen_apply sDemo
       (wavegen_apply sSquareDemo (SigGen.startupState sDemo))).dacEnabled = true ∧
    (wavegen_apply sDemo
       (wavegen_apply sSquareDemo (SigGen.startupState sDemo))).pwmAttached = true :=
  ⟨rfl, rfl⟩

/-- C2 (amended): in `main_v1`, after every `applyMode` call exactly one of the
DAC path and the LEDC/PWM path is enabled (square mode: only LEDC; otherwise:
only DAC).  In `part_000`, applying Square enables only the PWM channel, but
applying a non-square waveform enables the DAC while leaving the PWM channel
attached whenever it already was — exclusivity holds there only if the PWM
channel was not previously attached. -/
theorem C2_amended_exclusivity (m : MainV1.State)
    (s1 : Settings) (st1 : WGState) (h1 : s1.wave = Waveform.Square)
    (s2 : Settings) (st2 : WGState) (h2 : s2.wave ≠ Waveform.Square) :
    (((applyMode m).dacEnabled && (applyMode m).ledcAttached) = false ∧
     ((applyMode m).dacEnabled || (applyMode m).ledcAttached) = true) ∧
    ((wavegen_apply s1 st1).pwmAttached = true ∧
     (wavegen_apply s1 st1).dacEnabled = false) ∧
    ((wavegen_apply s2 st2).dacEnabled = true ∧
     (wavegen_apply s2 st2).pwmAttached = st2.pwmAttached) := by
  refine ⟨?_, ⟨(wavegen_apply_square_hw s1 st1 h1).1, (wavegen_apply_square_hw s1 st1 h1).2.1⟩,
          (wavegen_apply_analog_hw s2 st2 h2).1, (wavegen_apply_analog_hw s2 st2 h2).2.1⟩
  by_cases hm : m.mode = WaveMode.MODE_SQUARE
  · obtain ⟨e1, e2, -⟩ := applyMode_square m hm
    rw [e1, e2]; exact ⟨rfl, rfl⟩
  · obtain ⟨e1, e2, -⟩ := applyMode_analog m hm
    rw [e1, e2]; exact ⟨rfl, rfl⟩

theorem C2_witness :
    sSquareDemo.wave = Waveform.Square ∧ sDemo.wave ≠ Waveform.Square ∧
    ((((applyMode mSq).dacEnabled && (applyMode mSq).ledcAttached) = false ∧
      ((applyMode mSq).dacEnabled || (applyMode mSq).ledcAttached) = true) ∧
     ((wavegen_apply sSquareDemo (SigGen.startupState sDemo)).pwmAttached = true ∧
      (wavegen_apply sSquareDemo (SigGen.startupState sDemo)).dacEnabled = false) ∧
     ((wavegen_apply sDemo (SigGen.startupState sDemo)).dacEnabled = true ∧
      (wavegen_apply sDemo (SigGen.startupState sDemo)).pwmAttached =
        (SigGen.startupState sDemo).pwmAttached)) :=
  ⟨rfl, by decide,
   C2_amended_exclusivity mSq sSquareDemo (SigGen.startupState sDemo) rfl
     sDemo (SigGen.startupState sDemo) (by decide)⟩

theorem clamp_ite_eq_max_min (x lo hi : ℚ) (h : lo ≤ hi) :
    (if (if x < lo then lo else x) > hi then hi else if x < lo then lo else x)
      = max lo (min hi x) := by
  rcases lt_or_le x lo with hx | hx
  · rw [if_pos hx, if_neg (not_lt.mpr h),
        min_eq_right (le_of_lt (lt_of_lt_of_le hx h)), max_eq_left (le_of_lt hx)]
  · rw [if_neg (not_lt.mpr hx)]
    rcases lt_or_le hi x with hx2 | hx2
    · rw [if_pos hx2, min_eq_left (le_of_lt hx2), max_eq_right h]
    · rw [if_neg (not_lt.mpr hx2), min_eq_right hx2, max_eq_right hx]

theorem SigGen.wavegen_apply_square_vals (s : Settings) (st : WGState)
    (h : s.wave = Waveform.Square) :
    (wavegen_apply s st).g.actualHz = s.targetHz ∧
    (wavegen_apply s st).pwmFreq = (⌊max 1 (min PWM_MAX_HZ s.targetHz)⌋).toNat ∧
    (wavegen_apply s st).pwmDuty = 128 := by
  obtain ⟨w, t, a, hz⟩ := s
  cases h
  unfold wavegen_apply configure_square dac_timer_stop
  split <;>
    refine ⟨rfl, ?_, rfl⟩ <;>
    · dsimp only
      rw [clamp_ite_eq_max_min t 1 PWM_MAX_HZ (by norm_num [PWM_MAX_HZ])]
      rfl

/-- C3 counterexample: `wavegen_apply` with a Square request of 20 MHz stores
`actualHz = 20000000` — the raw request — although the square-mode clamp bound
is `PWM_MAX_HZ = 10000000` and the PWM hardware is configured at 10 MHz; the
stored `actualHz` does not reflect the clamped bound. -/
theorem C3_counterexample :
    (wavegen_apply sBigSquare (SigGen.startupState sDemo)).g.actualHz = 20000000 ∧
    (wavegen_apply sBigSquare (SigGen.startupState sDemo)).pwmFreq = 10000000 ∧
    ((20000000 : ℚ) ≠ 10000000) := by
  obtain ⟨h1, h2, -⟩ := wavegen_apply_square_vals sBigSquare (SigGen.startupState sDemo) rfl
  refine ⟨h1, ?_, by norm_num⟩
  rw [h2]
  have hmm : max (1 : ℚ) (min PWM_MAX_HZ sBigSquare.targetHz) = ((10000000 : ℤ) : ℚ) := by
    norm_num [PWM_MAX_HZ, sBigSquare]
  rw [hmm, Int.floor_intCast]
  rfl

/-- C3 (amended): after `wavegen_apply` with waveform Square, the stored
`actualHz` equals the *unclamped* requested frequency, while the PWM channel
itself is configured at the request clamped to `[1, PWM_MAX_HZ]`; only for
requests already inside that range does `actualHz` coincide with the clamped
frequency. -/
theorem C3_amended_actualHz (s : Settings) (st : WGState)
    (h : s.wave = Waveform.Square) :
    (wavegen_apply s st).g.actualHz = s.targetHz ∧
    (wavegen_apply s st).pwmFreq = (⌊max 1 (min PWM_MAX_HZ s.targetHz)⌋).toNat :=
  ⟨(wavegen_apply_square_vals s st h).1, (wavegen_apply_square_vals s st h).2.1⟩

theorem C3_witness :
    sSquareDemo.wave = Waveform.Square ∧
    ((wavegen_apply sSquareDemo (SigGen.startupState sDemo)).g.actualHz =
       sSquareDemo.targetHz ∧
     (wavegen_apply sSquareDemo (SigGen.startupState sDemo)).pwmFreq =
       (⌊max 1 (min PWM_MAX_HZ sSquareDemo.targetHz)⌋).toNat) :=
  ⟨rfl, C3_amended_actualHz sSquareDemo (SigGen.startupState sDemo) rfl⟩

theorem SigGen.round_step_nonneg (c : ℚ) (hc : 1 ≤ c) :
    0 ≤ round (c * 256 / (1000000 / 50)) := by
  rw [round_eq]
  apply Int.le_floor.mpr
  have h1 : (0 : ℚ) ≤ c * 256 / (1000000 / 50) := by
    apply div_nonneg
    · nlinarith
    · norm_num
  push_cast
  linarith

theorem SigGen.step_quantize_eq (c : ℚ) (hc : 1 ≤ c) :
    (if (if (⌊c * 256 / (1000000 / ((50 : ℕ) : ℚ)) + 0.5⌋).toNat < 1 then 1
         else (⌊c * 256 / (1000000 / ((50 : ℕ) : ℚ)) + 0.5⌋).toNat) > 64 then 64
     else if (⌊c * 256 / (1000000 / ((50 : ℕ) : ℚ)) + 0.5⌋).toNat < 1 then 1
          else (⌊c * 256 / (1000000 / ((50 : ℕ) : ℚ)) + 0.5⌋).toNat)
      = (max 1 (min 64 (round (c * 256 / (1000000 / 50))))).toNat := by
  have hfs : ((50 : ℕ) : ℚ) = 50 := by norm_num
  have h05 : (0.5 : ℚ) = 1 / 2 := by norm_num
  rw [hfs, h05, ← round_eq]
  have hr : 0 ≤ round (c * 256 / (1000000 / 50)) := round_step_nonneg c hc
  split_ifs <;> omega

theorem SigGen.configure_dac_wave_phaseStep (t : ℚ) (s : WGState) :
    ((configure_dac_wave t s).1).phaseStep =
      (max 1 (min 64 (round (max 1 (min DAC_MAX_HZ t) * 256 / (1000000 / 50))))).toNat := by
  unfold configure_dac_wave dac_timer_start
  dsimp only
  rw [clamp_ite_eq_max_min t 1 DAC_MAX_HZ (by norm_num [DAC_MAX_HZ])]
  exact step_quantize_eq _ (le_max_left _ _)

theorem SigGen.configure_dac_wave_actual (t : ℚ) (s : WGState) :
    (configure_dac_wave t s).2 =
      (1000000 / ((50 : ℕ) : ℚ)) * ((((configure_dac_wave t s).1).phaseStep : ℚ) / 256) := rfl

/-- C4: `configure_dac_wave` (with the fixed 50 µs period, N = 256,
fs = 1e6/50 = 20000) realizes the spec's Frequency Mapper exactly: the target
is clamped to `[1, DAC_MAX_HZ]`, the ideal step `targetHz·N/fs` is rounded to
the nearest integer (round-half-up) and clamped to `[1, 64]`, and the returned
`actualHz` is exactly `fs·phaseStep/N`. -/
theorem C4_freq_mapping (t : ℚ) (s : WGState) :
    (((configure_dac_wave t s).1).phaseStep, (configure_dac_wave t s).2) =
      mapFrequency_spec t ∧
    1 ≤ ((configure_dac_wave t s).1).phaseStep ∧
    ((configure_dac_wave t s).1).phaseStep ≤ 64 ∧
    (configure_dac_wave t s).2 =
      20000 * ((((configure_dac_wave t s).1).phaseStep : ℚ) / 256) := by
  have hstep := configure_dac_wave_phaseStep t s
  have hact := configure_dac_wave_actual t s
  set r : ℤ := round (max 1 (min DAC_MAX_HZ t) * 256 / (1000000 / 50)) with hrdef
  have hr : 0 ≤ r := round_step_nonneg _ (le_max_left _ _)
  have h1 : ((max 1 (min 64 r)).toNat : ℤ) = max 1 (min 64 r) :=
    Int.toNat_of_nonneg (by omega)
  have hcast : (((max 1 (min 64 r)).toNat : ℕ) : ℚ) = ((max 1 (min 64 r) : ℤ) : ℚ) := by
    exact_mod_cast congrArg (fun z : ℤ => (z : ℚ)) h1
  have hfs : ((50 : ℕ) : ℚ) = 50 := by norm_num
  refine ⟨?_, by rw [hstep]; omega, by rw [hstep]; omega, ?_⟩
  · unfold mapFrequency_spec
    dsimp only
    refine Prod.ext ?_ ?_
    · exact hstep
    · rw [hact, hstep, hcast, hfs]
      ring
  · rw [hact, hstep, hcast, hfs]
    norm_num

/-- C7 counterexample: `main_v1`'s tick handler `waveTimerCb` has no mode
guard — on a square-mode state it still writes a sample (the midscale code
128) to the DAC and advances the phase accumulator, so the tick is not a
no-op there. -/
theorem C7_counterexample :
    (waveTimerCb mSq).2 = some 128 ∧
    ((waveTimerCb mSq).1).phaseIdx = 1 ∧
    mSq.phaseIdx = 0 :=
  ⟨rfl, rfl, rfl⟩

/-- C7 (amended): the square-mode tick is a complete no-op only in the
`part_000` variant, whose `on_timer` returns immediately with no DAC write and
no state change; in `main_v1`, `waveTimerCb` on a square-mode state writes the
amplitude-scaled midscale code (always 128) to the DAC and advances the phase
accumulator. -/
theorem C7_amended_noop (st : WGState) (h : st.wf = Waveform.Square)
    (m : MainV1.State) (hm : m.mode = WaveMode.MODE_SQUARE) :
    on_timer st = (st, none) ∧
    (waveTimerCb m).2 = some 128 ∧
    ((waveTimerCb m).1).phaseIdx = (m.phaseIdx + 1) &&& 255 := by
  refine ⟨by simp [on_timer, h], ?_, rfl⟩
  simp [waveTimerCb, hm, applyAmplitude, clampi]

theorem C7_witness :
    wgSq.wf = Waveform.Square ∧ mSq.mode = WaveMode.MODE_SQUARE ∧
    (on_timer wgSq = (wgSq, none) ∧
     (waveTimerCb mSq).2 = some 128 ∧
     ((waveTimerCb mSq).1).phaseIdx = (mSq.phaseIdx + 1) &&& 255) :=
  ⟨rfl, rfl, C7_amended_noop wgSq rfl mSq rfl⟩

/-- C8: every sine-table entry equals `round(127.5 + 127.5·sin(2π·i/N))`
clamped to `[0,255]` (the clamp is vacuous because the pre-rounding value
already lies in `[0,255]`). -/
theorem C8_sine_table (i : Fin 256) : ((lut_sin i : ℕ) : ℤ) = sineSpec i := by
  unfold lut_sin sineSpec
  have hs1 : Real.sin (2 * Real.pi * (((i : ℕ) : ℝ) / 256)) ≤ 1 := Real.sin_le_one _
  have hs2 : -1 ≤ Real.sin (2 * Real.pi * (((i : ℕ) : ℝ) / 256)) := Real.neg_one_le_sin _
  set y : ℝ := Real.sin (2 * Real.pi * (((i : ℕ) : ℝ) / 256)) with hy
  have h05 : (0.5 : ℝ) = 1 / 2 := by norm_num
  rw [h05, ← round_eq]
  have hub : round ((127.5 : ℝ) + 127.5 * y) ≤ 255 := by
    rw [round_eq]
    have h' : ⌊(127.5 : ℝ) + 127.5 * y + 1 / 2⌋ < 256 :=
      Int.floor_lt.mpr (by push_cast; linarith)
    omega
  have hlb : 0 ≤ round ((127.5 : ℝ) + 127.5 * y) := by
    rw [round_eq]
    exact Int.le_floor.mpr (by push_cast; linarith)
  rw [min_eq_right hub, max_eq_right hlb, Int.toNat_of_nonneg hlb]

theorem SigGen.lut_sin_le_255 (i : Fin 256) : lut_sin i ≤ 255 := by
  unfold lut_sin
  have hs1 : Real.sin (2 * Real.pi * (((i : ℕ) : ℝ) / 256)) ≤ 1 := Real.sin_le_one _
  have h' : ⌊(127.5 : ℝ) + 127.5 * Real.sin (2 * Real.pi * (((i : ℕ) : ℝ) / 256)) + 0.5⌋ < 256 :=
    Int.floor_lt.mpr (by push_cast; linarith)
  omega

theorem SigGen.lut_sin_at_64 : lut_sin ⟨64, by norm_num⟩ = 255 := by
  show (⌊(127.5 : ℝ) + 127.5 * Real.sin (2 * Real.pi * (((64 : ℕ) : ℝ) / 256)) + 0.5⌋).toNat = 255
  have harg : 2 * Real.pi * (((64 : ℕ) : ℝ) / 256) = Real.pi / 2 := by
    push_cast
    ring
  rw [harg, Real.sin_pi_div_two]
  have hv : (127.5 : ℝ) + 127.5 * 1 + 0.5 = 255 + 1 / 2 := by norm_num
  rw [hv]
  have hfl : ⌊(255 : ℝ) + 1 / 2⌋ = 255 := by
    apply Int.floor_eq_iff.mpr
    constructor <;> push_cast <;> norm_num
  rw [hfl]
  rfl

theorem SigGen.lut_tri_le_254 : ∀ i : Fin 256, lut_tri i ≤ 254 := by
  intro i
  have hi := i.isLt
  unfold lut_tri
  split <;> omega

/-- C9 counterexample: the triangle table never exceeds 254 while the sine
table attains 255 (at index 64), so the two tables do NOT share the same
maximum and the triangle midpoint peak (254) is not the sine peak (255). -/
theorem C9_counterexample :
    lut_tri ⟨128, by norm_num⟩ = 254 ∧
    (∀ i : Fin 256, lut_tri i ≤ 254) ∧
    lut_sin ⟨64, by norm_num⟩ = 255 :=
  ⟨rfl, lut_tri_le_254, lut_sin_at_64⟩

/-- C9 (amended): the triangle table ramps up as `2·i` over the first half and
down as `2·(255−i)` over the second half, peaking at 254 at the midpoint; the
sine table's maximum is 255 (attained at index 64, and never exceeded), so the
triangle peak is one code below the sine peak rather than equal to it. -/
theorem C9_amended_triangle (i : Fin 256) (hlo : (i : ℕ) < 128)
    (j : Fin 256) (hhi : 128 ≤ (j : ℕ)) :
    lut_tri i = (i : ℕ) * 2 ∧
    lut_tri j = (255 - (j : ℕ)) * 2 ∧
    lut_tri ⟨128, by norm_num⟩ = 254 ∧
    (∀ k : Fin 256, lut_tri k ≤ 254) ∧
    lut_sin ⟨64, by norm_num⟩ = 255 ∧
    (∀ k : Fin 256, lut_sin k ≤ 255) :=
  ⟨by unfold lut_tri; rw [if_pos hlo],
   by unfold lut_tri; rw [if_neg (not_lt.mpr hhi)],
   rfl, lut_tri_le_254, lut_sin_at_64, lut_sin_le_255⟩

theorem C9_witness :
    ((⟨5, by norm_num⟩ : Fin 256) : ℕ) < 128 ∧
    128 ≤ ((⟨200, by norm_num⟩ : Fin 256) : ℕ) ∧
    (lut_tri ⟨5, by norm_num⟩ = ((⟨5, by norm_num⟩ : Fin 256) : ℕ) * 2 ∧
     lut_tri ⟨200, by norm_num⟩ = (255 - ((⟨200, by norm_num⟩ : Fin 256) : ℕ)) * 2 ∧
     lut_tri ⟨128, by norm_num⟩ = 254 ∧
     (∀ k : Fin 256, lut_tri k ≤ 254) ∧
     lut_sin ⟨64, by norm_num⟩ = 255 ∧
     (∀ k : Fin 256, lut_sin k ≤ 255)) :=
  ⟨by norm_num, by norm_num,
   C9_amended_triangle ⟨5, by norm_num⟩ (by norm_num) ⟨200, by norm_num⟩ (by norm_num)⟩
